import Mathlib

/-!
Shallow embedding of the MCP protocol client core of this repository
(`src/tools/mcp/src/client/mcp_client.py`, `src/tools/mcp/src/client/sse_client.py`,
`src/tools/mcp/src/models/mcp_messages.py`, `src/tools/mcp/src/config.py`),
together with theorems settling the frozen claims about it.

Conventions of the embedding:
* Python JSON values (the output of `json.loads`) are modelled by the inductive
  `JVal`; `json.loads` itself is an external library, so an SSE event carries
  both its raw `data` string and the parse outcome (`none` = `JSONDecodeError`).
* Raised exceptions become `Except` errors; functions that catch every
  exception and return a structured value become total Lean functions.
* Wall-clock deadlines are modelled by finite availability: the list of
  responses a queue yields before the deadline; exhausting it is the timeout.
* Floats that the code only multiplies, compares and caps (backoff delays,
  timeouts) are modelled as rationals; all concrete values involved are
  exactly representable in both.
-/

namespace MCPSpec

/-- A JSON value as produced by Python's `json.loads`: null, bool, integer
number (the payloads at issue carry no fractional numbers), string, array, or
object as an association list in document order. -/
inductive JVal where
  | jnull : JVal
  | jbool : Bool → JVal
  | jnum : Int → JVal
  | jstr : String → JVal
  | jarr : List JVal → JVal
  | jobj : List (String × JVal) → JVal
deriving Repr

/-- Python truthiness of a JSON value: `None`, `False`, `0`, `""`, `[]`, `{}`
are falsy, everything else truthy. -/
def JVal.truthy : JVal → Bool
  | .jnull => false
  | .jbool b => b
  | .jnum n => n != 0
  | .jstr s => s ≠ ""
  | .jarr xs => !xs.isEmpty
  | .jobj fs => !fs.isEmpty

/-- `dict.get(key)`: the first binding of `key`, `none` when absent. -/
def JVal.get (fields : List (String × JVal)) (key : String) : Option JVal :=
  (fields.find? (fun p => p.1 = key)).map Prod.snd

mutual

/-- Python `repr` of a parsed-JSON value, as it appears inside pydantic's
`str(model)` output (string escaping is not modelled; the strings at issue
contain no quotes or backslashes). -/
def JVal.pyRepr : JVal → String
  | .jnull => "None"
  | .jbool b => if b then "True" else "False"
  | .jnum n => toString n
  | .jstr s => "\'" ++ s ++ "\'"
  | .jarr xs => "[" ++ String.intercalate ", " (JVal.pyReprList xs) ++ "]"
  | .jobj fs => "\x7b" ++ String.intercalate ", " (JVal.pyReprObj fs) ++ "\x7d"

/-- `repr` of the elements of a JSON array. -/
def JVal.pyReprList : List JVal → List String
  | [] => []
  | x :: xs => x.pyRepr :: JVal.pyReprList xs

/-- `repr` of the entries of a JSON object. -/
def JVal.pyReprObj : List (String × JVal) → List String
  | [] => []
  | (k, v) :: fs => ("\'" ++ k ++ "\': " ++ v.pyRepr) :: JVal.pyReprObj fs

end

mutual

/-- `json.dumps` of a value with the default separators (escaping and
non-integer numbers are not modelled, as above). -/
def JVal.dumps : JVal → String
  | .jnull => "null"
  | .jbool b => if b then "true" else "false"
  | .jnum n => toString n
  | .jstr s => "\"" ++ s ++ "\""
  | .jarr xs => "[" ++ String.intercalate ", " (JVal.dumpsList xs) ++ "]"
  | .jobj fs => "\x7b" ++ String.intercalate ", " (JVal.dumpsObj fs) ++ "\x7d"

/-- `json.dumps` of the elements of a JSON array. -/
def JVal.dumpsList : List JVal → List String
  | [] => []
  | x :: xs => x.dumps :: JVal.dumpsList xs

/-- `json.dumps` of the entries of a JSON object. -/
def JVal.dumpsObj : List (String × JVal) → List String
  | [] => []
  | (k, v) :: fs => ("\"" ++ k ++ "\": " ++ v.dumps) :: JVal.dumpsObj fs

end

/-- A JSON-RPC id: `int | str` in the source (`MCPRequest.id`,
`MCPResponse.id`). -/
abbrev ReqId := Int ⊕ String

/-- `MCPError` (models/mcp_messages.py): a JSON-RPC error object. -/
structure MCPError where
  code : Int
  message : String
  data : Option JVal := none
deriving Repr

/-- pydantic's `str(error)` for an `MCPError` instance: the fields joined by
spaces, values shown by `repr`. -/
def strOfMCPError (e : MCPError) : String :=
  "code=" ++ toString e.code ++ " message=\'" ++ e.message ++ "\' data="
    ++ (match e.data with
        | none => "None"
        | some v => v.pyRepr)

/-- `MCPResponse` (models/mcp_messages.py): a JSON-RPC 2.0 response. `result`
is `Optional[Any]`, kept as a raw JSON value. -/
structure MCPResponse where
  jsonrpc : String := "2.0"
  result : Option JVal := none
  error : Option MCPError := none
  id : Option ReqId := none
deriving Repr

/-- `MCPResponse.is_error`. -/
def MCPResponse.is_error (r : MCPResponse) : Bool :=
  r.error.isSome

/-- `MCPResponse.is_success`. -/
def MCPResponse.is_success (r : MCPResponse) : Bool :=
  r.error.isNone

/-!
## Response correlation: `MCPClient._wait_for_sse_response`

The source repeatedly takes the next response from `_response_queue`
(`asyncio.Queue`, FIFO: take from the front, put at the back).  A matching
response is returned after re-queuing the set-aside non-matching ones; a
non-matching one is appended to the local `pending_responses` list.  The
loop has TWO timeout exits: the top-of-loop check
`if remaining_timeout <= 0: raise` (line 262), reached when the wall clock
has already passed the deadline on re-entering the loop, which raises
WITHOUT re-queuing `pending_responses`; and the `asyncio.wait_for` timeout,
whose `except` arm (line 282) re-queues `pending_responses` before
re-raising.
-/

/-- Which timeout exit fires when the holding area yields nothing more
before the deadline: `atLoopTop` is the `remaining_timeout <= 0` raise that
drops `pending_responses`; `inWait` is the caught `asyncio.wait_for`
timeout that re-queues them first. -/
inductive WaitTimeout where
  | atLoopTop
  | inWait
deriving Repr, DecidableEq

/-- `MCPClient._wait_for_sse_response`.  `avail` is the list of responses
the queue yields before the deadline (the queue contents at registration
followed by arrivals during the wait, in FIFO order); exhausting `avail` is
the timeout, and `ending` says which of the two timeout exits then fires.
The function returns the result (`Except` error = the raised
`TimeoutError`) together with the queue contents after the call. -/
def waitForSSEResponse (request_id : Option ReqId) (ending : WaitTimeout) :
    List MCPResponse → List MCPResponse → Except String MCPResponse × List MCPResponse
  | [], pending =>
      match ending with
      | .inWait =>
          -- except arm: re-queue pending, then raise TimeoutError
          (Except.error "Timeout waiting for response", pending)
      | .atLoopTop =>
          -- top-of-loop raise: pending_responses are NOT re-queued
          (Except.error "Timeout waiting for response", [])
  | r :: rest, pending =>
      if request_id = none ∨ r.id = request_id then
        -- match: re-queue pending behind the not-yet-taken responses, return
        (Except.ok r, rest ++ pending)
      else
        waitForSSEResponse request_id ending rest (pending ++ [r])

/-- Unmatched responses pass straight into the pending list:
processing `xs ++ rest` with every element of `xs` non-matching is processing
`rest` with `xs` appended to pending. -/
theorem waitForSSEResponse_skip (ending : WaitTimeout) (rid : ReqId)
    (xs : List MCPResponse) (hxs : ∀ x ∈ xs, x.id ≠ some rid)
    (rest pending : List MCPResponse) :
    waitForSSEResponse (some rid) ending (xs ++ rest) pending =
      waitForSSEResponse (some rid) ending rest (pending ++ xs) := by
  induction xs generalizing pending with
  | nil => simp
  | cons x xs ih =>
      have hx : x.id ≠ some rid := hxs x (by simp)
      have hxs' : ∀ y ∈ xs, y.id ≠ some rid := fun y hy => hxs y (by simp [hy])
      simp only [List.cons_append, waitForSSEResponse]
      rw [if_neg (by simp [hx])]
      exact (ih hxs' (pending ++ [x])).trans (by simp)

/-!
## `MCPClient.call_tool` and the tool-result decoding it relies on
-/

/-- `MCPToolResult` (models/mcp_messages.py); `content` keeps the raw content
item dicts (`list[dict[str, Any]]`). -/
structure MCPToolResult where
  content : List (List (String × JVal)) := []
  isError : Bool := false
deriving Repr

/-- pydantic validation of the `content` field: every element of the list must
be a dict, else a `ValidationError` (`none`). -/
def contentItemsOfJVal : List JVal → Option (List (List (String × JVal)))
  | [] => some []
  | .jobj fs :: rest => (contentItemsOfJVal rest).map (fs :: ·)
  | _ => none

/-- `MCPToolResult(**fields)` under pydantic's defaults: unknown fields are
ignored, absent fields take their defaults, a wrongly-typed field raises
`ValidationError` (`none`). -/
def MCPToolResult.fromDict (fs : List (String × JVal)) : Option MCPToolResult :=
  (match JVal.get fs "content" with
   | none => some []
   | some (.jarr xs) => contentItemsOfJVal xs
   | some _ => none).bind fun content =>
  match JVal.get fs "isError" with
  | none => some { content := content, isError := false }
  | some (.jbool b) => some { content := content, isError := b }
  | some _ => none

/-- `MCPResponse.get_tool_result`: `None` unless `result` is a truthy dict,
else decode it; the `ValidationError` that `MCPToolResult(**self.result)` can
raise is the `Except.error` case. -/
def MCPResponse.get_tool_result (r : MCPResponse) :
    Except String (Option MCPToolResult) :=
  match r.result with
  | some (.jobj fs) =>
      if (JVal.jobj fs).truthy then
        match MCPToolResult.fromDict fs with
        | some tr => .ok (some tr)
        | none => .error "ValidationError"
      else .ok none
  | _ => .ok none

/-- `ToolCallResult` (mcp_client.py). -/
structure ToolCallResult where
  tool_name : String
  success : Bool
  result : Option MCPToolResult := none
  error : Option String := none
  duration_ms : ℚ := 0
  response_size_bytes : Nat := 0
deriving Repr

/-- The outcome of `await self._send_request(request)` (together with the
optional enclosing `asyncio.timeout`) as observed by its caller: a returned
response, a raised timeout, or any other raised exception carrying its
message. -/
inductive SendOutcome where
  | ok (resp : MCPResponse)
  | timeout
  | exn (msg : String)

/-- Rendering of the `timeout` argument inside the f-string
`f"Timeout after {timeout}s"` (a rational stands in for the float). -/
def timeoutRepr : Option ℚ → String
  | some t => toString t
  | none => "None"

/-- `MCPClient.call_tool`: every branch, including the two `except` arms,
produces a `ToolCallResult`.  `duration_ms` is the elapsed wall-clock time,
passed in as a parameter. -/
def call_tool (tool_name : String) (timeout : Option ℚ) (outcome : SendOutcome)
    (duration_ms : ℚ) : ToolCallResult :=
  match outcome with
  | .timeout =>
      { tool_name := tool_name, success := false,
        error := some ("Timeout after " ++ timeoutRepr timeout ++ "s"),
        duration_ms := duration_ms }
  | .exn msg =>
      { tool_name := tool_name, success := false, error := some msg,
        duration_ms := duration_ms }
  | .ok resp =>
      match resp.error with
      | some e =>
          { tool_name := tool_name, success := false,
            error := some (strOfMCPError e), duration_ms := duration_ms }
      | none =>
          match resp.get_tool_result with
          | .error msg =>
              -- ValidationError from decoding, caught by the generic except
              { tool_name := tool_name, success := false, error := some msg,
                duration_ms := duration_ms }
          | .ok tr =>
              { tool_name := tool_name, success := true, result := tr,
                duration_ms := duration_ms,
                response_size_bytes :=
                  match resp.result with
                  | some v => if v.truthy then v.dumps.length else 0
                  | none => 0 }

/-!
## `MCPClient._send_request`: response delivery mode
-/

/-- Python whitespace as stripped by `str.strip()` (ASCII part). -/
def isPyWhitespace (c : Char) : Bool :=
  c = ' ' || c = '\t' || c = '\n' || c = '\r' || c = '\x0b' || c = '\x0c'

/-- `str.strip()`: remove leading and trailing whitespace. -/
def pyStrip (s : String) : String :=
  ⟨((s.toList.dropWhile isPyWhitespace).reverse.dropWhile isPyWhitespace).reverse⟩

/-- How `_send_request` delivers the response, decided from the POST's HTTP
status and body: parse the body synchronously, block on
`_wait_for_sse_response` with the given timeout, or raise
(`raise_for_status` on a non-2xx status). -/
inductive DeliveryMode where
  | syncBody (body : String)
  | awaitSSE (timeout : ℚ)
  | raised
deriving Repr, DecidableEq

/-- The branch structure of `MCPClient._send_request` after the POST returns:
`response.raise_for_status()`, then `status_code == 202`, then the
empty-body check `not text or text.strip() == ""`, else the direct JSON
body.  `_wait_for_sse_response` is entered with its default
`timeout = 30.0`. -/
def sendRequestMode (status : Nat) (body : String) : DeliveryMode :=
  if ¬ (200 ≤ status ∧ status < 300) then .raised
  else if status = 202 then .awaitSSE 30
  else if body = "" ∨ pyStrip body = "" then .awaitSSE 30
  else .syncBody body

/-!
## SSE layer: configuration, session extraction, `SSEClient.connect`
-/

/-- `MCPServerConfig` (config.py): the fields the client core reads. -/
structure MCPServerConfig where
  base_url : String := "http://localhost:8080"
  sse_endpoint : String := "/mcp/spring/sse"
  message_endpoint : String := "/mcp/spring/messages"
deriving Repr, DecidableEq

/-- `MCPServerConfig.sse_url`. -/
def MCPServerConfig.sse_url (c : MCPServerConfig) : String :=
  c.base_url ++ c.sse_endpoint

/-- `MCPServerConfig.message_url`. -/
def MCPServerConfig.message_url (c : MCPServerConfig) : String :=
  c.base_url ++ c.message_endpoint

/-- `ConnectionInfo` (models/mcp_messages.py): the fields `SSEClient` sets
(timestamps and server metadata omitted — the client never writes them). -/
structure ConnectionInfo where
  session_id : Option String := none
  message_endpoint : Option String := none
deriving Repr, DecidableEq

/-- Whether `needle` occurs in the list (Python's `in` on strings). -/
def containsSub (needle : List Char) : List Char → Bool
  | [] => needle.isEmpty
  | c :: rest => needle.isPrefixOf (c :: rest) || containsSub needle rest

/-- First match of `re.search(r"sessionId=([^&]+)", endpoint)`: the leftmost
position where `sessionId=` is followed by at least one non-`&` character;
the captured group is that run of non-`&` characters. -/
def regexSessionId : List Char → Option String
  | [] => none
  | c :: rest =>
      if "sessionId=".toList.isPrefixOf (c :: rest) then
        let v := ((c :: rest).drop 10).takeWhile (· ≠ '&')
        if v.isEmpty then regexSessionId rest else some ⟨v⟩
      else regexSessionId rest

/-- `str.rstrip("/")`. -/
def rstripSlash (s : String) : String :=
  ⟨(s.toList.reverse.dropWhile (· = '/')).reverse⟩

/-- Python's `str.split(sep)` for a one-character separator: splits on every
occurrence, keeping empty pieces, and yields `[""]` on the empty string. -/
def splitOnChar (c : Char) : List Char → List (List Char)
  | [] => [[]]
  | x :: xs =>
      let r := splitOnChar c xs
      if x = c then [] :: r
      else
        match r with
        | [] => [[x]]
        | h :: t => (x :: h) :: t

/-- Python's `str.startswith("/")`: the first character is a slash. -/
def pyStartsWithSlash (s : String) : Bool :=
  match s.toList with
  | [] => false
  | c :: _ => c = '/'

/-- `SSEClient._extract_session_id`. -/
def extractSessionId (endpoint : Option String) : Option String :=
  match endpoint with
  | none => none
  | some e =>
      if e = "" then none   -- `if not endpoint`
      else
        let fromQuery : Option String :=
          if containsSub "sessionId=".toList e.toList then regexSessionId e.toList
          else none
        match fromQuery with
        | some sid => some sid
        | none =>
            if containsSub ['/'] e.toList then
              some ⟨(splitOnChar '/' (rstripSlash e).toList).getLastD []⟩
            else none

/-- An SSE event as the client sees it: the event type, the raw `data`
string, and the outcome of `json.loads(data)` (`none` = `JSONDecodeError`),
carried alongside since the JSON grammar lives in the external library. -/
structure SSEEventM where
  type : String := "message"
  data : String := ""
  parsed : Option JVal := none

/-- Result of handling the first endpoint event inside `SSEClient.connect`:
a `ConnectionInfo`, or an exception (`AttributeError` on `.get` for a
truthy non-dict payload, pydantic rejecting a non-string `uri`, ...), which
the surrounding `except` turns into a failed connect. -/
inductive EndpointParse where
  | info (ci : ConnectionInfo)
  | raised
deriving Repr, DecidableEq

/-- The endpoint-event branch of `SSEClient.connect`: `parse_json` the data;
a truthy parse is read as a dict with a `uri` key, anything else falls back
to the raw data string. -/
def parseEndpointEvent (raw : String) (parsed : Option JVal) : EndpointParse :=
  match parsed with
  | some v =>
      if v.truthy then
        match v with
        | .jobj fs =>
            match JVal.get fs "uri" with
            | none => .info { message_endpoint := none, session_id := none }
            | some .jnull => .info { message_endpoint := none, session_id := none }
            | some (.jstr s) =>
                .info { message_endpoint := some s,
                        session_id := extractSessionId (some s) }
            | some _ => .raised
        | _ => .raised
      else
        .info { message_endpoint := some raw,
                session_id := extractSessionId (some raw) }
  | none =>
      .info { message_endpoint := some raw,
              session_id := extractSessionId (some raw) }

/-- The mutable state of `SSEClient` the claims observe. -/
structure SSEState where
  is_connected : Bool := false
  connection_info : Option ConnectionInfo := none
  last_event_time : Option ℚ := none
deriving Repr, DecidableEq

/-- How the endpoint-event wait ended when no endpoint event was seen: the
stream's event iterator finished, or the `asyncio.timeout` deadline
expired. -/
inductive WaitEnd where
  | streamEnd
  | deadline
deriving Repr, DecidableEq

/-- `SSEClient.connect`: `openOk` is whether opening the stream
(`EventSource.connect`) succeeds, `events` the events observed before
`ending`, `now` the wall clock at connect time.  Returns the Python return
value together with the state after the call (`close()` sets
`_is_connected = False` and clears `_connection_info` but not
`_last_event_time`). -/
def sseConnect (st : SSEState) (openOk : Bool) (now : ℚ)
    (events : List SSEEventM) (ending : WaitEnd) : Bool × SSEState :=
  if st.is_connected then (true, st)
  else if ¬ openOk then
    (false, { is_connected := false, connection_info := none,
              last_event_time := st.last_event_time })
  else
    let st1 : SSEState :=
      { is_connected := true, connection_info := st.connection_info,
        last_event_time := some now }
    match events.find? (fun ev => ev.type = "endpoint") with
    | some ev =>
        match parseEndpointEvent ev.data ev.parsed with
        | .info ci => (true, { st1 with connection_info := some ci })
        | .raised =>
            (false, { is_connected := false, connection_info := none,
                      last_event_time := some now })
    | none =>
        match ending with
        | .streamEnd => (true, st1)
        | .deadline =>
            (false, { is_connected := false, connection_info := none,
                      last_event_time := some now })

/-- The `SSEClient.message_endpoint` property: the session's endpoint when
truthy, prefixed with `base_url` when it starts with "/", else the
statically configured `message_url`. -/
def messageEndpoint (cfg : MCPServerConfig) (st : SSEState) : String :=
  match st.connection_info with
  | some ci =>
      match ci.message_endpoint with
      | some e =>
          if e ≠ "" then
            if pyStartsWithSlash e then cfg.base_url ++ e else e
          else cfg.message_url
      | none => cfg.message_url
  | none => cfg.message_url

/-!
## `MCPClient.connect` and the background drain loop
-/

/-- The observable partial state of `MCPClient` after `connect`. -/
structure MCPClientState where
  sse_connected : Bool := false      -- a live SSE stream is held
  listener_running : Bool := false   -- the background drain task is running
  initialized : Bool := false
deriving Repr, DecidableEq

/-- The outcome of `await self._initialize()`: success, an error response to
`initialize` (→ `RuntimeError`), or a raised send/await failure. -/
inductive InitOutcome where
  | ok
  | errorResponse (e : MCPError)
  | raised (msg : String)

/-- `MCPClient.connect`: connect the SSE client, start the listener task,
initialize; the `except` arm only logs and returns `False`.  (`SSEClient
.connect` closes itself on failure, so a failed first step holds no
stream.) -/
def mcpConnect (sseOk : Bool) (init : InitOutcome) : Bool × MCPClientState :=
  if ¬ sseOk then
    (false, { sse_connected := false, listener_running := false,
              initialized := false })
  else
    match init with
    | .ok => (true, { sse_connected := true, listener_running := true,
                      initialized := true })
    | _ => (false, { sse_connected := true, listener_running := true,
                     initialized := false })

/-- pydantic's `id: Optional[int | str]` field: absent or `null` is `None`,
an int or str is kept, anything else raises. -/
def reqIdOfJVal : Option JVal → Option (Option ReqId)
  | none => some none
  | some .jnull => some none
  | some (.jnum n) => some (some (Sum.inl n))
  | some (.jstr s) => some (some (Sum.inr s))
  | some _ => none

/-- `MCPError(**value)` during response validation. -/
def decodeMCPError : JVal → Option MCPError
  | .jobj fs =>
      (match JVal.get fs "code" with
       | some (.jnum n) => some n
       | _ => none).bind fun code =>
      (match JVal.get fs "message" with
       | some (.jstr s) => some s
       | _ => none).bind fun message =>
      some { code := code, message := message,
             data := match JVal.get fs "data" with
                     | some .jnull => none
                     | x => x }
  | _ => none

/-- `MCPResponse(**data)`: `none` when the value is not a dict (`TypeError`)
or a field fails validation (`ValidationError`). -/
def decodeMCPResponse : JVal → Option MCPResponse
  | .jobj fs =>
      (match JVal.get fs "jsonrpc" with
       | none => some "2.0"
       | some (.jstr s) => some s
       | some _ => none).bind fun jsonrpc =>
      (reqIdOfJVal (JVal.get fs "id")).bind fun id =>
      (match JVal.get fs "error" with
       | none => some none
       | some .jnull => some none
       | some v => (decodeMCPError v).map some).bind fun error =>
      some { jsonrpc := jsonrpc,
             result := match JVal.get fs "result" with
                       | some .jnull => none
                       | x => x,
             error := error, id := id }
  | _ => none

/-- One event of `_listen_for_responses`: endpoint events and events with
falsy data are skipped; data that fails `json.loads` (`JSONDecodeError`) or
`MCPResponse(**data)` (any exception) is logged and dropped. -/
def extractResponse (ev : SSEEventM) : Option MCPResponse :=
  if ev.type = "endpoint" then none
  else if ev.data = "" then none
  else
    match ev.parsed with
    | none => none
    | some v => decodeMCPResponse v

/-- `MCPClient._listen_for_responses`: fold over the event sequence,
appending each successfully decoded response to the response queue. -/
def listenForResponses (events : List SSEEventM) (queue : List MCPResponse) :
    List MCPResponse :=
  events.foldl (fun q ev =>
    match extractResponse ev with
    | some r => q ++ [r]
    | none => q) queue

/-!
## `MCPClient.list_tools`
-/

/-- `ToolInfo` (models/mcp_messages.py); `inputSchema` keeps the raw dict. -/
structure ToolInfo where
  name : String
  description : Option String := none
  inputSchema : Option (List (String × JVal)) := none
deriving Repr

/-- `ToolInfo(**value)`. -/
def decodeToolInfo : JVal → Option ToolInfo
  | .jobj fs =>
      (match JVal.get fs "name" with
       | some (.jstr s) => some s
       | _ => none).bind fun name =>
      (match JVal.get fs "description" with
       | none => some none
       | some .jnull => some none
       | some (.jstr s) => some (some s)
       | some _ => none).bind fun descr =>
      (match JVal.get fs "inputSchema" with
       | none => some none
       | some .jnull => some none
       | some (.jobj g) => some (some g)
       | some _ => none).bind fun schema =>
      some { name := name, description := descr, inputSchema := schema }
  | _ => none

/-- Validation of a `list[ToolInfo]` field. -/
def decodeToolInfoList : List JVal → Option (List ToolInfo)
  | [] => some []
  | v :: rest =>
      (decodeToolInfo v).bind fun t => (decodeToolInfoList rest).map (t :: ·)

/-- `ToolsListResult(**result)`: `tools` defaults to `[]`; a non-dict value
or wrongly-typed field raises (`none`). -/
def decodeToolsListResult : JVal → Option (List ToolInfo)
  | .jobj fs =>
      (match JVal.get fs "tools" with
       | none => some []
       | some (.jarr xs) => decodeToolInfoList xs
       | some _ => none)
  | _ => none

/-- `MCPClient.list_tools`: there is no `try` in the function body — every
failure is raised to the caller (`Except.error`).  Returns the outcome and
the `_tools_cache` after the call. -/
def list_tools (use_cache : Bool) (cache : Option (List ToolInfo))
    (send : SendOutcome) :
    Except String (List ToolInfo) × Option (List ToolInfo) :=
  if use_cache ∧ cache.isSome then (.ok (cache.getD []), cache)
  else
    match send with
    | .timeout => (.error "TimeoutError", cache)
    | .exn msg => (.error msg, cache)
    | .ok resp =>
        match resp.error with
        | some e => (.error ("List tools failed: " ++ strOfMCPError e), cache)
        | none =>
            match resp.result with
            | some v =>
                if v.truthy then
                  match decodeToolsListResult v with
                  | some tools => (.ok tools, some tools)
                  | none => (.error "ValidationError", cache)
                else (.ok [], cache)
            | none => (.ok [], cache)

/-!
## `ReconnectingSSEClient.connect_with_retry`
-/

/-- The loop of `connect_with_retry` over the remaining iterations of
`range(max_retries + 1)`: `attempt` is the loop variable, `delay` the
current backoff delay; before every attempt but the first the loop sleeps
`delay` (and bumps `_reconnect_count`), then updates
`delay = min(delay * multiplier, backoff_max)`, then calls `connect()`
(`outcomes attempt`).  Returns the final result, the delays slept in order
(one entry per `_reconnect_count` increment), and the number of `connect`
calls made. -/
def retryAux (outcomes : Nat → Bool) (mult cap : ℚ) :
    Nat → Nat → ℚ → Bool × List ℚ × Nat
  | _, 0, _ => (false, [], 0)
  | attempt, remaining + 1, delay =>
      let slept : List ℚ := if attempt > 0 then [delay] else []
      let delay' : ℚ := if attempt > 0 then min (delay * mult) cap else delay
      if outcomes attempt then (true, slept, 1)
      else
        let r := retryAux outcomes mult cap (attempt + 1) remaining delay'
        (r.1, slept ++ r.2.1, r.2.2 + 1)

/-- `ReconnectingSSEClient.connect_with_retry`, starting from
`delay = self.backoff_base` and `attempt = 0`. -/
def connectWithRetry (max_retries : Nat) (backoff_base mult cap : ℚ)
    (outcomes : Nat → Bool) : Bool × List ℚ × Nat :=
  retryAux outcomes mult cap 0 (max_retries + 1) backoff_base

/-- The recurrence the backoff delay follows once sleeping has started:
`backoffSeq mult cap base n` is the delay slept before the `(n+1)`-th
reconnection attempt. -/
def backoffSeq (mult cap base : ℚ) : Nat → ℚ
  | 0 => base
  | n + 1 => min (backoffSeq mult cap base n * mult) cap

theorem backoffSeq_shift (mult cap base : ℚ) (n : Nat) :
    backoffSeq mult cap base (n + 1) =
      backoffSeq mult cap (min (base * mult) cap) n := by
  induction n with
  | zero => rfl
  | succ n ih =>
      rw [backoffSeq, ih]
      rfl

/-- With every attempt failing and sleeping already active (`attempt ≥ 1`),
the loop sleeps the orbit of the backoff recurrence starting at the current
delay. -/
theorem retryAux_allFail_delays (mult cap : ℚ) (remaining : Nat) :
    ∀ (attempt : Nat) (delay : ℚ), 1 ≤ attempt →
      (retryAux (fun _ => false) mult cap attempt remaining delay).2.1 =
        (List.range remaining).map (backoffSeq mult cap delay) := by
  induction remaining with
  | zero => intro attempt delay _; rfl
  | succ remaining ih =>
      intro attempt delay hatt
      have hpos : attempt > 0 := hatt
      rw [retryAux]
      simp only [if_pos hpos, Bool.false_eq_true, if_false]
      rw [ih (attempt + 1) (min (delay * mult) cap) (by omega)]
      rw [List.range_succ_eq_map]
      simp only [List.map_cons, List.map_map, List.singleton_append]
      congr 1
      apply List.map_congr_left
      intro n _
      show backoffSeq mult cap (min (delay * mult) cap) n =
        backoffSeq mult cap delay (n + 1)
      exact (backoffSeq_shift mult cap delay n).symm

/-- The loop makes at most `remaining` further `connect` calls. -/
theorem retryAux_calls_le (outcomes : Nat → Bool) (mult cap : ℚ) :
    ∀ (remaining attempt : Nat) (delay : ℚ),
      (retryAux outcomes mult cap attempt remaining delay).2.2 ≤ remaining := by
  intro remaining
  induction remaining with
  | zero => intro attempt delay; simp [retryAux]
  | succ remaining ih =>
      intro attempt delay
      rw [retryAux]
      split
      · simp
      · simpa using Nat.succ_le_succ (ih (attempt + 1) _)

/-- Every `connect` call after the first is preceded by exactly one sleep:
from `attempt ≥ 1` on, calls made = delays slept. -/
theorem retryAux_calls_eq_sleeps (outcomes : Nat → Bool) (mult cap : ℚ) :
    ∀ (remaining attempt : Nat) (delay : ℚ), 1 ≤ attempt →
      (retryAux outcomes mult cap attempt remaining delay).2.2 =
        (retryAux outcomes mult cap attempt remaining delay).2.1.length := by
  intro remaining
  induction remaining with
  | zero => intro attempt delay _; rfl
  | succ remaining ih =>
      intro attempt delay hatt
      have hpos : attempt > 0 := hatt
      rw [retryAux]
      simp only [if_pos hpos]
      split
      · rfl
      · simpa using ih (attempt + 1) (min (delay * mult) cap) (by omega)

/-- A successful regex search implies the literal `sessionId=` occurs in
the scanned text. -/
theorem regexSessionId_some_contains :
    ∀ (l : List Char) (v : String), regexSessionId l = some v →
      containsSub "sessionId=".toList l = true := by
  intro l
  induction l with
  | nil =>
      intro v h
      simp [regexSessionId] at h
  | cons c rest ih =>
      intro v h
      rw [regexSessionId] at h
      rw [containsSub]
      split at h
      · rename_i hp
        rw [hp, Bool.true_or]
      · rename_i hp
        rw [ih v h, Bool.or_true]

/-- `takeWhile` keeps a list every element of which satisfies the
predicate. -/
theorem takeWhile_eq_self_of_all {α : Type} (p : α → Bool) :
    ∀ l : List α, (∀ a ∈ l, p a = true) → l.takeWhile p = l := by
  intro l h
  induction l with
  | nil => rfl
  | cons a l ih =>
      rw [List.takeWhile_cons, if_pos (h a (List.mem_cons_self a l))]
      rw [ih fun b hb => h b (List.mem_cons_of_mem a hb)]

/-- The regex matches at the start of `sessionId=` followed by a non-empty
run of non-`&` characters. -/
theorem regexSessionId_head (v : List Char) (hv : v ≠ [])
    (hamp : ∀ c ∈ v, c ≠ '&') :
    regexSessionId ("sessionId=".toList ++ v) = some ⟨v⟩ := by
  have hpre :
      "sessionId=".toList.isPrefixOf ('s' :: ("essionId=".toList ++ v)) = true := by
    rw [List.isPrefixOf_iff_prefix]
    exact List.prefix_append "sessionId=".toList v
  have htake : v.takeWhile (· ≠ '&') = v := by
    apply takeWhile_eq_self_of_all
    intro a ha
    simpa using hamp a ha
  rw [show "sessionId=".toList ++ v = 's' :: ("essionId=".toList ++ v) from rfl]
  rw [regexSessionId, if_pos hpre]
  show (if (v.takeWhile (· ≠ '&')).isEmpty = true then
          regexSessionId ("essionId=".toList ++ v)
        else some ⟨v.takeWhile (· ≠ '&')⟩) = some ⟨v⟩
  rw [htake, if_neg (by simp [List.isEmpty_iff, hv])]

/-- The regex search skips a prefix containing no match. -/
theorem regexSessionId_append_skip :
    ∀ (pre rest : List Char),
      (∀ i, i < pre.length →
        "sessionId=".toList.isPrefixOf ((pre ++ rest).drop i) = false) →
      regexSessionId (pre ++ rest) = regexSessionId rest := by
  intro pre
  induction pre with
  | nil => intro rest _; rfl
  | cons c pre ih =>
      intro rest h
      have h0 : "sessionId=".toList.isPrefixOf (c :: (pre ++ rest)) = false := by
        simpa using h 0 (Nat.succ_pos _)
      rw [List.cons_append, regexSessionId,
        if_neg (by rw [h0]; exact Bool.false_ne_true)]
      exact ih rest fun i hi => by
        simpa using h (i + 1) (by simpa using Nat.succ_lt_succ hi)

/-- The server's error message is a substring of pydantic's `str(error)`. -/
theorem message_isInfix_strOfMCPError (e : MCPError) :
    e.message.toList <:+: (strOfMCPError e).toList := by
  refine ⟨("code=" ++ toString e.code ++ " message=\'").toList,
    ("\' data=" ++ (match e.data with | none => "None" | some v => v.pyRepr)).toList, ?_⟩
  simp only [strOfMCPError, String.toList, String.data_append]
  simp [String.data_append]

/-!
## Claim theorems
-/

/-- C1 counterexample: a waiter for id 7 takes the non-matching response
with id 3 and sets it aside; the deadline then expires at the top-of-loop
`remaining_timeout <= 0` check, which raises without re-queuing — the final
holding area is empty, not the claimed re-inserted `[response 3]`: the
set-aside response is lost to other waiters. -/
theorem awaitResponse_lossy_counterexample :
    waitForSSEResponse (some (Sum.inl 7)) WaitTimeout.atLoopTop
        [{ id := some (Sum.inl 3) }] [] =
      (Except.error "Timeout waiting for response",
        ([] : List MCPResponse)) ∧
    ([] : List MCPResponse) ≠ [{ id := some (Sum.inl 3) }] := by
  exact ⟨rfl, by simp⟩

/-- C1 (amended): `_wait_for_sse_response(id, deadline)` returns the first
response in the holding area whose id matches — also one queued before the
waiter registered — re-queuing the set-aside non-matching responses behind
the remaining queue in their original relative order.  On deadline expiry a
timeout is raised, but which responses survive depends on which of the two
timeout exits fires: the caught `asyncio.wait_for` timeout re-queues every
set-aside response first (the holding area again holds exactly the
unmatched responses in original order), while the top-of-loop
`remaining_timeout <= 0` raise re-queues nothing, losing every set-aside
response. -/
theorem awaitResponse_spec :
    (∀ (ending : WaitTimeout) (rid : ReqId) (xs ys : List MCPResponse)
        (r : MCPResponse),
        (∀ x ∈ xs, x.id ≠ some rid) → r.id = some rid →
        waitForSSEResponse (some rid) ending (xs ++ r :: ys) [] =
          (Except.ok r, ys ++ xs)) ∧
    (∀ (rid : ReqId) (avail : List MCPResponse),
        (∀ x ∈ avail, x.id ≠ some rid) →
        waitForSSEResponse (some rid) WaitTimeout.inWait avail [] =
          (Except.error "Timeout waiting for response", avail)) ∧
    (∀ (rid : ReqId) (avail : List MCPResponse),
        (∀ x ∈ avail, x.id ≠ some rid) →
        waitForSSEResponse (some rid) WaitTimeout.atLoopTop avail [] =
          (Except.error "Timeout waiting for response", [])) := by
  refine ⟨?_, ?_, ?_⟩
  · intro ending rid xs ys r hxs hr
    rw [waitForSSEResponse_skip ending rid xs hxs (r :: ys) []]
    simp [waitForSSEResponse, hr]
  · intro rid avail h
    have h2 := waitForSSEResponse_skip WaitTimeout.inWait rid avail h [] []
    simpa [waitForSSEResponse] using h2
  · intro rid avail h
    have h2 := waitForSSEResponse_skip WaitTimeout.atLoopTop rid avail h [] []
    simpa [waitForSSEResponse] using h2

/-- Witness for C1 (amended): a response with id 7 pre-seeded behind a
non-matching one is returned and the other re-queued; a fruitless wait
ending in the caught `wait_for` timeout re-queues everything, one ending at
the top-of-loop raise keeps nothing. -/
theorem awaitResponse_spec_witness :
    waitForSSEResponse (some (Sum.inl 7)) WaitTimeout.inWait
        [{ id := some (Sum.inl 3) }, { id := some (Sum.inl 7) },
         { id := some (Sum.inl 5) }] [] =
      (Except.ok { id := some (Sum.inl 7) },
        [{ id := some (Sum.inl 5) }, { id := some (Sum.inl 3) }]) ∧
    waitForSSEResponse (some (Sum.inl 9)) WaitTimeout.inWait
        [{ id := some (Sum.inl 3) }] [] =
      (Except.error "Timeout waiting for response",
        [{ id := some (Sum.inl 3) }]) ∧
    waitForSSEResponse (some (Sum.inl 9)) WaitTimeout.atLoopTop
        [{ id := some (Sum.inl 3) }] [] =
      (Except.error "Timeout waiting for response", []) := by
  refine ⟨?_, ?_, ?_⟩
  · exact awaitResponse_spec.1 WaitTimeout.inWait (Sum.inl 7)
      [{ id := some (Sum.inl 3) }] [{ id := some (Sum.inl 5) }]
      { id := some (Sum.inl 7) } (by simp) rfl
  · exact awaitResponse_spec.2.1 (Sum.inl 9) [{ id := some (Sum.inl 3) }]
      (by simp)
  · exact awaitResponse_spec.2.2 (Sum.inl 9) [{ id := some (Sum.inl 3) }]
      (by simp)

/-- C2: `call_tool` always hands back a `ToolCallResult` — the three
outcome shapes of the send (error response, timeout, other raised
exception) each map to a structured result: an error response gives
`success = false` with pydantic's `str(error)` as the message (which
contains the server's message text as a substring), a timeout and a
transport exception give `success = false` with their classified
message. -/
theorem callTool_structured_outcome :
    (∀ (name : String) (t : Option ℚ) (dur : ℚ) (resp : MCPResponse)
        (e : MCPError), resp.error = some e →
        (call_tool name t (.ok resp) dur).success = false ∧
        (call_tool name t (.ok resp) dur).error = some (strOfMCPError e) ∧
        e.message.toList <:+: (strOfMCPError e).toList) ∧
    (∀ (name : String) (t : Option ℚ) (dur : ℚ),
        (call_tool name t .timeout dur).success = false ∧
        (call_tool name t .timeout dur).error =
          some ("Timeout after " ++ timeoutRepr t ++ "s")) ∧
    (∀ (name : String) (t : Option ℚ) (dur : ℚ) (msg : String),
        (call_tool name t (.exn msg) dur).success = false ∧
        (call_tool name t (.exn msg) dur).error = some msg) := by
  refine ⟨?_, ?_, ?_⟩
  · intro name t dur resp e he
    refine ⟨?_, ?_, message_isInfix_strOfMCPError e⟩ <;> simp [call_tool, he]
  · intro name t dur
    exact ⟨rfl, rfl⟩
  · intro name t dur msg
    exact ⟨rfl, rfl⟩

/-- Witness for C2 at the spec's example: error code -32601, message
"not found". -/
theorem callTool_structured_outcome_witness :
    (call_tool "search_docs" none
        (.ok { error := some { code := -32601, message := "not found" },
               id := some (Sum.inl 3) }) 1).success = false ∧
    (call_tool "search_docs" none
        (.ok { error := some { code := -32601, message := "not found" },
               id := some (Sum.inl 3) }) 1).error =
      some "code=-32601 message=\'not found\' data=None" ∧
    "not found".toList <:+:
      "code=-32601 message=\'not found\' data=None".toList ∧
    (call_tool "search_docs" (some 30) .timeout 1).success = false ∧
    (call_tool "search_docs" none (.exn "boom") 1).success = false := by
  have he := callTool_structured_outcome.1 "search_docs" none 1
      { error := some { code := -32601, message := "not found" },
        id := some (Sum.inl 3) }
      { code := -32601, message := "not found" } rfl
  exact ⟨he.1, he.2.1, he.2.2,
    (callTool_structured_outcome.2.1 "search_docs" (some 30) 1).1,
    (callTool_structured_outcome.2.2 "search_docs" none 1 "boom").1⟩

/-- C3 counterexample: a 200 response whose body is a single space has a
non-empty body, yet `_send_request` does not parse it synchronously — the
blank-body check `text.strip() == ""` sends it to the SSE wait. -/
theorem sendRequest_whitespace_counterexample :
    " " ≠ "" ∧ sendRequestMode 200 " " = DeliveryMode.awaitSSE 30 ∧
      sendRequestMode 200 " " ≠ DeliveryMode.syncBody " " := by
  refine ⟨by decide, by decide, by decide⟩

/-- C3 (amended): delivery is decided by the status and the blank-ness of
the body: a 200 with a body containing a non-whitespace character is parsed
synchronously; a 202, or a 200 whose body is empty or whitespace-only,
awaits the SSE-delivered response with the default 30-second timeout. -/
theorem sendRequest_delivery_mode :
    (∀ body : String, pyStrip body ≠ "" →
        sendRequestMode 200 body = DeliveryMode.syncBody body) ∧
    (∀ body : String, body = "" ∨ pyStrip body = "" →
        sendRequestMode 200 body = DeliveryMode.awaitSSE 30) ∧
    (∀ body : String, sendRequestMode 202 body = DeliveryMode.awaitSSE 30) := by
  refine ⟨?_, ?_, ?_⟩
  · intro body h
    have hb : body ≠ "" := by
      intro hb
      exact h (by rw [hb]; rfl)
    simp [sendRequestMode, hb, h]
  · intro body h
    rcases h with h | h <;> simp [sendRequestMode, h]
  · intro body
    simp [sendRequestMode]

/-- Witness for C3 (amended) at a JSON body, an empty body and a 202. -/
theorem sendRequest_delivery_mode_witness :
    sendRequestMode 200 "\x7b\"id\": 1\x7d" =
      DeliveryMode.syncBody "\x7b\"id\": 1\x7d" ∧
    sendRequestMode 200 "" = DeliveryMode.awaitSSE 30 ∧
    sendRequestMode 202 "anything" = DeliveryMode.awaitSSE 30 := by
  exact ⟨sendRequest_delivery_mode.1 _ (by decide),
    sendRequest_delivery_mode.2.1 _ (Or.inl rfl),
    sendRequest_delivery_mode.2.2 _⟩

/-- C4 counterexample: the stream opens but the deadline expires before any
endpoint event: `SSEClient.connect` catches the `asyncio.TimeoutError`,
closes itself and returns `False` — it does not treat the connection as
accepted. -/
theorem sseConnect_deadline_counterexample :
    sseConnect {} true 0 [] WaitEnd.deadline =
      (false, { is_connected := false, connection_info := none,
                last_event_time := some 0 }) := by
  rfl

/-- C4 (amended): with the stream open and no endpoint event seen, the
outcome depends on how the wait ended: if the event stream terminates
before the deadline, `connect` reports success with no session info and the
message-endpoint property falls back to the statically configured
`message_url`; if the deadline expires first, `connect` closes the client
and reports failure. -/
theorem sseConnect_no_endpoint :
    ∀ (st : SSEState) (now : ℚ) (events : List SSEEventM)
      (cfg : MCPServerConfig),
      st.is_connected = false → st.connection_info = none →
      (∀ ev ∈ events, ev.type ≠ "endpoint") →
      (sseConnect st true now events WaitEnd.streamEnd =
          (true, { is_connected := true, connection_info := none,
                   last_event_time := some now }) ∧
        messageEndpoint cfg
            (sseConnect st true now events WaitEnd.streamEnd).2 =
          cfg.message_url) ∧
      sseConnect st true now events WaitEnd.deadline =
        (false, { is_connected := false, connection_info := none,
                  last_event_time := some now }) := by
  intro st now events cfg hconn hinfo hev
  have hfind : events.find? (fun ev => ev.type = "endpoint") = none := by
    rw [List.find?_eq_none]
    intro ev hmem
    simpa using hev ev hmem
  refine ⟨⟨?_, ?_⟩, ?_⟩
  · simp [sseConnect, hconn, hfind, hinfo]
  · simp [sseConnect, hconn, hfind, hinfo, messageEndpoint]
  · simp [sseConnect, hconn, hfind]

/-- Witness for C4 (amended): a non-endpoint event stream. -/
theorem sseConnect_no_endpoint_witness :
    (sseConnect {} true 2 [{ type := "message", data := "x" }]
        WaitEnd.streamEnd =
      (true, { is_connected := true, connection_info := none,
               last_event_time := some 2 })) ∧
    messageEndpoint {}
        (sseConnect {} true 2 [{ type := "message", data := "x" }]
          WaitEnd.streamEnd).2 =
      "http://localhost:8080/mcp/spring/messages" ∧
    sseConnect {} true 2 [{ type := "message", data := "x" }]
        WaitEnd.deadline =
      (false, { is_connected := false, connection_info := none,
                last_event_time := some 2 }) := by
  have h := sseConnect_no_endpoint {} 2 [{ type := "message", data := "x" }]
      {} rfl rfl (by decide)
  exact ⟨h.1.1, h.1.2, h.2⟩

/-- C5 counterexample: the transport connects but `initialize` gets an
error response: `MCPClient.connect` returns `False`, yet the background
listener task started in between keeps running on the still-open SSE
stream — partial state remains observable. -/
theorem mcpConnect_partial_state_counterexample :
    mcpConnect true (.errorResponse { code := -32600, message := "bad" }) =
      (false, { sse_connected := true, listener_running := true,
                initialized := false }) := by
  rfl

/-- C5 (amended): `connect` reports failure to the caller on any failed
sub-step and marks the session initialized only when every step succeeds;
but cleanup is asymmetric: a transport-connect failure leaves no partial
state, while a failure during `initialize` leaves the SSE stream live and
the listener task running. -/
theorem mcpConnect_reports_failure :
    ∀ init : InitOutcome,
      (mcpConnect false init =
        (false, { sse_connected := false, listener_running := false,
                  initialized := false })) ∧
      (mcpConnect true .ok =
        (true, { sse_connected := true, listener_running := true,
                 initialized := true })) ∧
      (∀ e, mcpConnect true (.errorResponse e) =
        (false, { sse_connected := true, listener_running := true,
                  initialized := false })) ∧
      (∀ msg, mcpConnect true (.raised msg) =
        (false, { sse_connected := true, listener_running := true,
                  initialized := false })) := by
  intro init
  exact ⟨rfl, rfl, fun _ => rfl, fun _ => rfl⟩

/-- C10: `SSEClient.connect` on an already-connected client returns `True`
and leaves the whole state untouched, no matter what stream, events or
deadline would have followed. -/
theorem sseConnect_already_connected (st : SSEState) (openOk : Bool)
    (now : ℚ) (events : List SSEEventM) (ending : WaitEnd)
    (h : st.is_connected = true) :
    sseConnect st openOk now events ending = (true, st) := by
  simp [sseConnect, h]

/-- C6 counterexample: a JSON-RPC error response to `tools/list` makes
`list_tools` raise `RuntimeError("List tools failed: ...")` — the
exception escapes to the caller instead of a structured outcome. -/
theorem listTools_raises_counterexample :
    (list_tools false none
        (.ok { error := some { code := -32601, message := "not found" },
               id := some (Sum.inl 2) })).1 =
      Except.error
        "List tools failed: code=-32601 message=\'not found\' data=None" := by
  rfl

/-- C6 (amended): `list_tools` converts nothing into a structured outcome:
apart from the cache fast path, a transport exception or timeout raised by
`_send_request` propagates unchanged, and an error response raises
`RuntimeError` with the server's error rendered into the message. -/
theorem listTools_propagates :
    (∀ (cache : Option (List ToolInfo)) (uc : Bool) (resp : MCPResponse)
        (e : MCPError), ¬ (uc = true ∧ cache.isSome = true) →
        resp.error = some e →
        (list_tools uc cache (.ok resp)).1 =
          Except.error ("List tools failed: " ++ strOfMCPError e)) ∧
    (∀ (cache : Option (List ToolInfo)) (uc : Bool),
        ¬ (uc = true ∧ cache.isSome = true) →
        (list_tools uc cache .timeout).1 = Except.error "TimeoutError") ∧
    (∀ (cache : Option (List ToolInfo)) (uc : Bool) (msg : String),
        ¬ (uc = true ∧ cache.isSome = true) →
        (list_tools uc cache (.exn msg)).1 = Except.error msg) ∧
    (∀ (cache : Option (List ToolInfo)) (ts : List ToolInfo)
        (send : SendOutcome), cache = some ts →
        list_tools true cache send = (Except.ok ts, cache)) := by
  refine ⟨?_, ?_, ?_, ?_⟩
  · intro cache uc resp e hnc he
    unfold list_tools
    rw [if_neg hnc]
    simp [he]
  · intro cache uc hnc
    unfold list_tools
    rw [if_neg hnc]
  · intro cache uc msg hnc
    unfold list_tools
    rw [if_neg hnc]
  · intro cache ts send hc
    subst hc
    rfl

/-- Witness for C6 (amended): the error, timeout, exception and cache-hit
paths at concrete inputs. -/
theorem listTools_propagates_witness :
    (list_tools false none
        (.ok { error := some { code := -32601, message := "not found" },
               id := some (Sum.inl 2) })).1 =
      Except.error
        "List tools failed: code=-32601 message=\'not found\' data=None" ∧
    (list_tools false none .timeout).1 = Except.error "TimeoutError" ∧
    (list_tools false none (.exn "connection reset")).1 =
      Except.error "connection reset" ∧
    list_tools true (some [{ name := "get_doc" }]) .timeout =
      (Except.ok [{ name := "get_doc" }], some [{ name := "get_doc" }]) := by
  exact ⟨listTools_propagates.1 none false _
      { code := -32601, message := "not found" } (by simp) rfl,
    listTools_propagates.2.1 none false (by simp),
    listTools_propagates.2.2.1 none false "connection reset" (by simp),
    listTools_propagates.2.2.2 (some [{ name := "get_doc" }])
      [{ name := "get_doc" }] .timeout rfl⟩

/-- C7: with base 1 s, multiplier 2 and cap 10 s the delays slept before
consecutive failed reconnection attempts follow the orbit of
`min (previous * 2) 10` starting at 1 — concretely 1, 2, 4, 8, 10, 10 for
six retries; in general the loop makes at most `max_retries + 1` `connect`
calls, and sleeps (= `_reconnect_count` increments) exactly one fewer than
the calls. -/
theorem connectWithRetry_backoff :
    (∀ max_retries : Nat,
        (connectWithRetry max_retries 1 2 10 (fun _ => false)).2.1 =
          (List.range max_retries).map (backoffSeq 2 10 1)) ∧
    (connectWithRetry 6 1 2 10 (fun _ => false)).2.1 =
      [1, 2, 4, 8, 10, 10] ∧
    (∀ n : Nat, backoffSeq 2 10 1 (n + 1) =
        min (backoffSeq 2 10 1 n * 2) 10) ∧
    (∀ (max_retries : Nat) (base mult cap : ℚ) (outcomes : Nat → Bool),
        (connectWithRetry max_retries base mult cap outcomes).2.2 ≤
            max_retries + 1 ∧
          (connectWithRetry max_retries base mult cap outcomes).2.2 =
            (connectWithRetry max_retries base mult cap
                outcomes).2.1.length + 1) := by
  have hgen : ∀ mr : Nat,
      (connectWithRetry mr 1 2 10 (fun _ => false)).2.1 =
        (List.range mr).map (backoffSeq 2 10 1) := by
    intro mr
    have h := retryAux_allFail_delays 2 10 mr 1 1 (le_refl 1)
    rw [connectWithRetry, retryAux]
    simpa using h
  refine ⟨hgen, ?_, fun n => rfl, ?_⟩
  · rw [hgen 6]
    simp only [List.range_succ, List.range_zero, List.nil_append,
      List.map_append, List.map_cons, List.map_nil, backoffSeq]
    norm_num [min_def]
  · intro mr base mult cap outcomes
    refine ⟨retryAux_calls_le outcomes mult cap (mr + 1) 0 base, ?_⟩
    rw [connectWithRetry, retryAux]
    simp only [lt_self_iff_false, if_false, gt_iff_lt]
    split
    · rfl
    · simpa using retryAux_calls_eq_sleeps outcomes mult cap mr 1 _
        (le_refl 1)

/-- The drain loop is a queue-append of the decodable responses. -/
theorem listenForResponses_eq (events : List SSEEventM)
    (queue : List MCPResponse) :
    listenForResponses events queue =
      queue ++ events.filterMap extractResponse := by
  induction events generalizing queue with
  | nil => simp [listenForResponses]
  | cons ev evs ih =>
      simp only [listenForResponses, List.foldl_cons] at ih ⊢
      cases h : extractResponse ev <;>
        simp [h, ih, List.filterMap_cons]

/-- C8: the drain loop deposits exactly the decodable message responses, in
arrival order: an event whose data is malformed (not JSON, or not a
decodable JSON-RPC response) contributes nothing and does not terminate the
fold, so every later well-formed response event is still decoded and
queued. -/
theorem drainLoop_malformed_dropped :
    (∀ (events : List SSEEventM) (queue : List MCPResponse),
        listenForResponses events queue =
          queue ++ events.filterMap extractResponse) ∧
    (∀ (xs ys : List SSEEventM) (bad : SSEEventM)
        (queue : List MCPResponse), extractResponse bad = none →
        listenForResponses (xs ++ bad :: ys) queue =
          listenForResponses (xs ++ ys) queue) ∧
    (∀ ev : SSEEventM, ev.parsed = none → extractResponse ev = none) := by
  refine ⟨listenForResponses_eq, ?_, ?_⟩
  · intro xs ys bad queue hbad
    rw [listenForResponses_eq, listenForResponses_eq]
    simp [List.filterMap_append, List.filterMap_cons, hbad]
  · intro ev h
    unfold extractResponse
    split
    · rfl
    · split
      · rfl
      · rw [h]

/-- Witness for C8: an endpoint event, a non-JSON event and a well-formed
response event — the queue receives exactly the decoded response. -/
theorem drainLoop_malformed_dropped_witness :
    listenForResponses
        [{ type := "endpoint", data := "/mcp/spring/messages" },
         { type := "message", data := "oops not json" },
         { type := "message", data := "\x7b\"id\": 4\x7d",
           parsed := some (JVal.jobj [("id", JVal.jnum 4)]) }] [] =
      [{ jsonrpc := "2.0", result := none, error := none,
         id := some (Sum.inl 4) }] ∧
    listenForResponses
        [{ type := "message", data := "oops not json" },
         { type := "message", data := "\x7b\"id\": 4\x7d",
           parsed := some (JVal.jobj [("id", JVal.jnum 4)]) }] [] =
      listenForResponses
        [{ type := "message", data := "\x7b\"id\": 4\x7d",
           parsed := some (JVal.jobj [("id", JVal.jnum 4)]) }] [] ∧
    extractResponse { type := "message", data := "oops not json" } = none := by
  refine ⟨?_, ?_, drainLoop_malformed_dropped.2.2
    { type := "message", data := "oops not json" } rfl⟩
  · exact (drainLoop_malformed_dropped.1
      [{ type := "endpoint", data := "/mcp/spring/messages" },
       { type := "message", data := "oops not json" },
       { type := "message", data := "\x7b\"id\": 4\x7d",
         parsed := some (JVal.jobj [("id", JVal.jnum 4)]) }] []).trans (by rfl)
  · exact drainLoop_malformed_dropped.2.1 []
      [{ type := "message", data := "\x7b\"id\": 4\x7d",
         parsed := some (JVal.jobj [("id", JVal.jnum 4)]) }]
      { type := "message", data := "oops not json" } [] rfl

/-- C9 counterexample: an endpoint payload that parses as a JSON object
without a `uri` field does not fall back to the raw payload string — the
client stores no endpoint at all, and the message-endpoint property
resolves to the configured static URL instead of the payload. -/
theorem endpointParse_no_uri_counterexample :
    parseEndpointEvent "\x7b\"foo\": 1\x7d"
        (some (JVal.jobj [("foo", JVal.jnum 1)])) =
      EndpointParse.info { message_endpoint := none, session_id := none } ∧
    messageEndpoint {}
        { is_connected := true,
          connection_info := some { message_endpoint := none,
                                    session_id := none },
          last_event_time := some 0 } =
      "http://localhost:8080/mcp/spring/messages" ∧
    "http://localhost:8080/mcp/spring/messages" ≠ "\x7b\"foo\": 1\x7d" := by
  refine ⟨rfl, rfl, by decide⟩

/-- C9 (amended): a payload parsing as a truthy JSON object takes its
endpoint from the `uri` field — a string is stored as the endpoint, an
absent or null `uri` stores none (so the static URL is used later); only a
failed parse (or a falsy parse result) falls back to the raw payload
string.  A stored endpoint is prefixed with `base_url` exactly when it
starts with "/" (else used as-is).  The session id is the value captured by
the first `sessionId=([^&]+)` regex match; when there is no match it is the
final segment after stripping trailing slashes if the endpoint contains
"/", else none. -/
theorem endpointParse_spec :
    (∀ (raw : String) (fs : List (String × JVal)) (s : String),
        JVal.get fs "uri" = some (JVal.jstr s) → fs ≠ [] →
        parseEndpointEvent raw (some (JVal.jobj fs)) =
          EndpointParse.info { message_endpoint := some s,
                               session_id := extractSessionId (some s) }) ∧
    (∀ (raw : String) (fs : List (String × JVal)),
        JVal.get fs "uri" = none → fs ≠ [] →
        parseEndpointEvent raw (some (JVal.jobj fs)) =
          EndpointParse.info { message_endpoint := none,
                               session_id := none }) ∧
    (∀ raw : String,
        parseEndpointEvent raw none =
          EndpointParse.info { message_endpoint := some raw,
                               session_id := extractSessionId (some raw) }) ∧
    (∀ (raw : String) (v : JVal), v.truthy = false →
        parseEndpointEvent raw (some v) =
          EndpointParse.info { message_endpoint := some raw,
                               session_id := extractSessionId (some raw) }) ∧
    (∀ (cfg : MCPServerConfig) (st : SSEState) (ci : ConnectionInfo)
        (en : String), st.connection_info = some ci →
        ci.message_endpoint = some en → en ≠ "" →
        messageEndpoint cfg st =
          (if pyStartsWithSlash en then cfg.base_url ++ en else en)) ∧
    (∀ (pre v : List Char), v ≠ [] → (∀ c ∈ v, c ≠ '&') →
        (∀ i, i < pre.length →
          "sessionId=".toList.isPrefixOf
            ((pre ++ ("sessionId=".toList ++ v)).drop i) = false) →
        extractSessionId (some ⟨pre ++ ("sessionId=".toList ++ v)⟩) =
          some ⟨v⟩) ∧
    (∀ e : String, e ≠ "" → regexSessionId e.toList = none →
        containsSub ['/'] e.toList = true →
        extractSessionId (some e) =
          some ⟨(splitOnChar '/' (rstripSlash e).toList).getLastD []⟩) ∧
    (∀ e : String, e ≠ "" → regexSessionId e.toList = none →
        containsSub ['/'] e.toList = false →
        extractSessionId (some e) = none) := by
  refine ⟨?_, ?_, ?_, ?_, ?_, ?_, ?_, ?_⟩
  · intro raw fs s hget hfs
    have htr : (JVal.jobj fs).truthy = true := by
      simp [JVal.truthy, List.isEmpty_iff, hfs]
    simp [parseEndpointEvent, htr, hget]
  · intro raw fs hget hfs
    have htr : (JVal.jobj fs).truthy = true := by
      simp [JVal.truthy, List.isEmpty_iff, hfs]
    simp [parseEndpointEvent, htr, hget]
  · intro raw
    rfl
  · intro raw v hv
    simp only [parseEndpointEvent]
    rw [if_neg (by rw [hv]; exact Bool.false_ne_true)]
  · intro cfg st ci en h1 h2 h3
    simp only [messageEndpoint, h1, h2]
    rw [if_pos h3]
  · intro pre v hv hamp hskip
    have hregex :
        regexSessionId (pre ++ ("sessionId=".toList ++ v)) = some ⟨v⟩ := by
      rw [regexSessionId_append_skip pre ("sessionId=".toList ++ v) hskip]
      exact regexSessionId_head v hv hamp
    have hcontains :
        containsSub "sessionId=".toList
          (pre ++ ("sessionId=".toList ++ v)) = true :=
      regexSessionId_some_contains _ _ hregex
    have hne : (⟨pre ++ ("sessionId=".toList ++ v)⟩ : String) ≠ "" := by
      intro heq
      have h0 : pre ++ ("sessionId=".toList ++ v) = [] :=
        congrArg String.toList heq
      simp at h0
    simp only [extractSessionId]
    rw [if_neg hne]
    rw [show (String.mk (pre ++ ("sessionId=".toList ++ v))).toList =
        pre ++ ("sessionId=".toList ++ v) from rfl]
    rw [if_pos hcontains, hregex]
  · intro e hne hre hsl
    simp only [extractSessionId]
    rw [if_neg hne]
    have hfq : (if containsSub "sessionId=".toList e.toList then
        regexSessionId e.toList else none) = none := by
      split
      · exact hre
      · rfl
    rw [hfq]
    show (if containsSub ['/'] e.toList then
        some (⟨(splitOnChar '/' (rstripSlash e).toList).getLastD []⟩ : String)
      else none) =
      some ⟨(splitOnChar '/' (rstripSlash e).toList).getLastD []⟩
    rw [if_pos hsl]
  · intro e hne hre hsl
    simp only [extractSessionId]
    rw [if_neg hne]
    have hfq : (if containsSub "sessionId=".toList e.toList then
        regexSessionId e.toList else none) = none := by
      split
      · exact hre
      · rfl
    rw [hfq]
    show (if containsSub ['/'] e.toList then
        some (⟨(splitOnChar '/' (rstripSlash e).toList).getLastD []⟩ : String)
      else none) = none
    rw [if_neg (by rw [hsl]; exact Bool.false_ne_true)]

/-- Witness for C9 (amended): a JSON `uri` payload with a `sessionId=`
query, session-id extraction at that query, the raw-string fallback for
unparseable data with a path-segment session id, and base-URL
resolution. -/
theorem endpointParse_spec_witness :
    parseEndpointEvent "ignored"
        (some (JVal.jobj
          [("uri", JVal.jstr "/mcp/msgs?sessionId=abc123")])) =
      EndpointParse.info
        { message_endpoint := some "/mcp/msgs?sessionId=abc123",
          session_id := extractSessionId (some "/mcp/msgs?sessionId=abc123") } ∧
    extractSessionId (some "/mcp/msgs?sessionId=abc123") = some "abc123" ∧
    parseEndpointEvent "/direct/endpoint/xyz" none =
      EndpointParse.info
        { message_endpoint := some "/direct/endpoint/xyz",
          session_id := extractSessionId (some "/direct/endpoint/xyz") } ∧
    extractSessionId (some "/direct/endpoint/xyz") = some "xyz" ∧
    messageEndpoint {}
        { is_connected := true,
          connection_info := some { message_endpoint := some "/mcp/msgs",
                                    session_id := some "s" },
          last_event_time := none } = "http://localhost:8080/mcp/msgs" := by
  refine ⟨?_, ?_, endpointParse_spec.2.2.1 "/direct/endpoint/xyz", ?_, ?_⟩
  · exact endpointParse_spec.1 "ignored"
      [("uri", JVal.jstr "/mcp/msgs?sessionId=abc123")]
      "/mcp/msgs?sessionId=abc123" rfl (by simp)
  · have h := endpointParse_spec.2.2.2.2.2.1 "/mcp/msgs?".toList
      "abc123".toList (by decide) (by decide) (by decide)
    exact h
  · have h := endpointParse_spec.2.2.2.2.2.2.1 "/direct/endpoint/xyz"
      (by decide) (by decide) (by decide)
    rw [h]
    rfl
  · exact endpointParse_spec.2.2.2.2.1 {}
      { is_connected := true,
        connection_info := some { message_endpoint := some "/mcp/msgs",
                                  session_id := some "s" },
        last_event_time := none }
      { message_endpoint := some "/mcp/msgs", session_id := some "s" }
      "/mcp/msgs" rfl rfl (by decide)

/-- Witness for C10: a connected client with session state; `connect` with
a failing stream, a pending endpoint event and an expiring deadline still
returns `True` with the state unchanged. -/
theorem sseConnect_already_connected_witness :
    sseConnect
        { is_connected := true,
          connection_info := some { session_id := some "s1",
                                    message_endpoint := some "/m" },
          last_event_time := some 5 }
        false 9 [{ type := "endpoint", data := "/other" }] WaitEnd.deadline =
      (true,
        { is_connected := true,
          connection_info := some { session_id := some "s1",
                                    message_endpoint := some "/m" },
          last_event_time := some 5 }) :=
  sseConnect_already_connected _ _ _ _ _ rfl

end MCPSpec
